/-
A verification development for the IndexAI backend core: a shallow
embedding of the credit ledger, the URL state machine, the method queue
worker, the submission dispatcher, the verification step, the service
account pool and the fallback indexation probe, together with theorems
about the spec's testable properties.

Database rows are modelled as plain records; `id` fields are primary
keys.  ORM row updates (UPDATE ... WHERE id = ...) are modelled by
mapping an update function over the rows matching a predicate; row
lookups (`.scalars().first()`) by `List.find?`.  Raised exceptions that
abort before any mutation are modelled with `Except`.  Timestamps are
naturals; network responses are explicit inputs.
-/
import Mathlib

namespace IndexAI

/-! ## Data model (src/backend/app/models) -/

/-- URL lifecycle states, from `app/models/url.py` (`URLStatus`). -/
inductive URLStatus
  | pending
  | submitted
  | indexing
  | verifying
  | indexed
  | not_indexed
  | recredited
deriving DecidableEq

/-- Credit transaction kinds, from `app/models/credit.py` (`TransactionType`). -/
inductive TransactionType
  | purchase
  | debit
  | refund
  | bonus
deriving DecidableEq

/-- The six indexing channels of `app/services/indexing/method_queue.py`. -/
inductive Method
  | google_api
  | indexnow
  | pingomatic
  | websub
  | archive_org
  | backlink_pings
deriving DecidableEq

/-- A user row (`app/models/user.py`): only the fields the core reads. -/
structure UserRec where
  id : Nat
  credit_balance : Int
deriving DecidableEq

/-- A project row (`app/models/project.py`): owner and URL counter. -/
structure ProjectRec where
  id : Nat
  user_id : Nat
  total_urls : Nat
deriving DecidableEq

/-- A URL row (`app/models/url.py`). -/
structure URLRec where
  id : Nat
  project_id : Nat
  url : String
  status : URLStatus
  google_api_attempts : Nat
  google_api_last_status : Option String
  indexnow_attempts : Nat
  indexnow_last_status : Option String
  sitemap_ping_attempts : Nat
  social_signal_attempts : Nat
  backlink_ping_attempts : Nat
  is_indexed : Bool
  indexed_at : Option Nat
  last_checked_at : Option Nat
  check_count : Nat
  check_method : Option String
  indexed_title : Option String
  indexed_snippet : Option String
  credit_debited : Bool
  credit_refunded : Bool
  pre_indexed : Bool
  verified_not_indexed : Bool
  submitted_at : Option Nat
deriving DecidableEq

/-- A credit transaction row (`app/models/credit.py`); append-only. -/
structure CreditTransaction where
  user_id : Nat
  amount : Int
  type : TransactionType
  description : String
  url_id : Option Nat
deriving DecidableEq

/-- An indexing log row (`app/models/indexing_log.py`); append-only. -/
structure IndexingLogRec where
  url_id : Nat
  method : Method
  status : String
deriving DecidableEq

/-- A service account row (`app/models/service_account.py`). -/
structure ServiceAccount where
  id : Nat
  daily_quota : Nat
  used_today : Nat
  is_active : Bool
  last_reset_at : Option Nat
deriving DecidableEq

/-- The relational store: the authoritative state shared by all tasks. -/
structure DB where
  users : List UserRec
  projects : List ProjectRec
  urls : List URLRec
  txs : List CreditTransaction
  logs : List IndexingLogRec
deriving DecidableEq

/-- SQL `UPDATE ... WHERE p` semantics: rewrite every row matching `p`. -/
def updateWhere (p : α → Bool) (f : α → α) (l : List α) : List α :=
  l.map (fun x => if p x then f x else x)

/-- `select(User).where(User.id == uid)` + `.scalars().first()`. -/
def findUser (db : DB) (uid : Nat) : Option UserRec :=
  db.users.find? (fun u => u.id == uid)

/-- `select(URL).where(URL.id == url_id)` + `.scalars().first()`. -/
def findURL (db : DB) (url_id : Nat) : Option URLRec :=
  db.urls.find? (fun u => u.id == url_id)

/-- Signed sum of a user's transaction amounts. -/
def txSum (l : List CreditTransaction) (uid : Nat) : Int :=
  match l with
  | [] => 0
  | t :: ts => (if t.user_id = uid then t.amount else 0) + txSum ts uid

/-! ## Credit ledger (src/backend/app/services/credits.py) -/

/-- The transaction `debit_credits` appends for each submitted URL id. -/
def debitTx (uid url_id : Nat) : CreditTransaction :=
  { user_id := uid, amount := -1, type := TransactionType.debit,
    description := "URL submission", url_id := some url_id }

/-- `CreditService.debit_credits`: raises `InsufficientCreditsError`
(before any mutation) when the user is missing or the balance is below
`len(url_ids)`; otherwise decrements the balance by the count, appends
one debit transaction per url id, and marks each fetched URL
`credit_debited = true`. -/
def debit_credits (db : DB) (uid : Nat) (url_ids : List Nat) :
    Except String DB :=
  let count := url_ids.length
  match findUser db uid with
  | none => Except.error "InsufficientCredits"
  | some user =>
    if user.credit_balance < (count : Int) then
      Except.error "InsufficientCredits"
    else
      Except.ok
        { db with
          users := updateWhere (fun v => v.id == uid)
            (fun v => { v with credit_balance := v.credit_balance - (count : Int) })
            db.users
          urls := updateWhere (fun u => url_ids.contains u.id)
            (fun u => { u with credit_debited := true }) db.urls
          txs := db.txs ++ url_ids.map (debitTx uid) }

/-- Guard of the refund loop in `refund_credits`:
`credit_debited and not credit_refunded and not is_indexed`. -/
def refundEligible (u : URLRec) : Bool :=
  u.credit_debited && !u.credit_refunded && !u.is_indexed

/-- The transaction `refund_credits` appends per refunded URL. -/
def refundTx (uid url_id : Nat) : CreditTransaction :=
  { user_id := uid, amount := 1, type := TransactionType.refund,
    description := "Auto-refund: URL not indexed after 14 days",
    url_id := some url_id }

/-- Selection predicate of `refund_credits`: the URL was fetched by
`URL.id.in_(url_ids)` and satisfies the eligibility guard. -/
def refundSel (url_ids : List Nat) (u : URLRec) : Bool :=
  url_ids.contains u.id && refundEligible u

/-- `CreditService.refund_credits`: returns 0 for a missing user;
otherwise, for every fetched URL passing the guard, increments the
balance by one, sets `credit_refunded = true`, sets the status to
`recredited` and appends one refund transaction; returns the count. -/
def refund_credits (db : DB) (uid : Nat) (url_ids : List Nat) : DB × Nat :=
  match findUser db uid with
  | none => (db, 0)
  | some _ =>
    let selected := db.urls.filter (refundSel url_ids)
    let n := selected.length
    ({ db with
        users := updateWhere (fun v => v.id == uid)
          (fun v => { v with credit_balance := v.credit_balance + (n : Int) })
          db.users
        urls := updateWhere (refundSel url_ids)
          (fun u => { u with credit_refunded := true,
                             status := URLStatus.recredited }) db.urls
        txs := db.txs ++ selected.map (fun u => refundTx uid u.id) }, n)

/-- `CreditService.add_credits`: raises for a missing user; otherwise
adds `amount` to the balance and appends one purchase transaction. -/
def add_credits (db : DB) (uid : Nat) (amount : Int) (descr : String) :
    Except String DB :=
  match findUser db uid with
  | none => Except.error "User not found"
  | some _ =>
    Except.ok
      { db with
        users := updateWhere (fun v => v.id == uid)
          (fun v => { v with credit_balance := v.credit_balance + amount })
          db.users
        txs := db.txs ++
          [{ user_id := uid, amount := amount, type := TransactionType.purchase,
             description := descr, url_id := none }] }

/-! ## Method queue constants and jobs
    (src/backend/app/services/indexing/method_queue.py) -/

/-- `METHOD_PRIORITY`: per-method initial delay in seconds. -/
def METHOD_PRIORITY (m : Method) : Nat :=
  match m with
  | Method.indexnow => 0
  | Method.pingomatic => 120
  | Method.websub => 240
  | Method.archive_org => 480
  | Method.backlink_pings => 720
  | Method.google_api => 1800

/-- `MAX_RETRIES` from method_queue.py. -/
def MAX_RETRIES : Nat := 3

/-- `BACKOFF_BASE` (seconds) from method_queue.py. -/
def BACKOFF_BASE : Nat := 300

/-- A queue job descriptor (`{url_id, method, attempt, ...}`). -/
structure Job where
  url_id : Nat
  method : Method
  attempt : Nat
deriving DecidableEq

/-- The iteration order of `METHOD_PRIORITY.items()`. -/
def allMethods : List Method :=
  [Method.indexnow, Method.pingomatic, Method.websub,
   Method.archive_org, Method.backlink_pings, Method.google_api]

/-- `enqueue_url_methods`: six jobs with `attempt = 0` and score
`now + METHOD_PRIORITY[method]`. -/
def enqueue_url_methods (url_id now : Nat) : List (Job × Nat) :=
  allMethods.map (fun m =>
    ({ url_id := url_id, method := m, attempt := 0 }, now + METHOD_PRIORITY m))

/-! ## Adapters (src/backend/app/services/indexing) -/

/-- Result dict of `submit_indexnow`. -/
structure IndexNowResult where
  status_code : Nat
  success : Bool
deriving DecidableEq

/-- `indexnow.submit_indexnow`, with the HTTP response status code of the
IndexNow endpoint as explicit input: `success = status_code in [200, 202]`. -/
def submit_indexnow (status_code : Nat) : IndexNowResult :=
  { status_code := status_code,
    success := status_code == 200 || status_code == 202 }

/-- Result dict returned by `indexing_tasks._execute_method`. -/
structure MethodResult where
  success : Bool
  data : Option IndexNowResult
deriving DecidableEq

/-- The `indexnow` branch of `indexing_tasks._execute_method`: with no
config it returns `success=False`; with a config it calls the adapter and
returns `{"success": True, "data": result}`, discarding the adapter's own
`success` field. -/
def execute_method_indexnow (hasConfig : Bool) (status_code : Nat) :
    MethodResult :=
  if hasConfig then
    { success := true, data := some (submit_indexnow status_code) }
  else
    { success := false, data := none }

/-! ## Queue worker (indexing_tasks._process_method_queue, per job) -/

/-- `indexing_tasks._increment_attempt_counter`. -/
def increment_attempt_counter (u : URLRec) (m : Method) (success : Bool) :
    URLRec :=
  let status_str := if success then "success" else "error"
  match m with
  | Method.google_api =>
      { u with google_api_attempts := u.google_api_attempts + 1,
               google_api_last_status := some status_str }
  | Method.indexnow =>
      { u with indexnow_attempts := u.indexnow_attempts + 1,
               indexnow_last_status := some status_str }
  | Method.pingomatic =>
      { u with social_signal_attempts := u.social_signal_attempts + 1 }
  | Method.websub =>
      { u with social_signal_attempts := u.social_signal_attempts + 1 }
  | Method.archive_org =>
      { u with social_signal_attempts := u.social_signal_attempts + 1 }
  | Method.backlink_pings =>
      { u with backlink_ping_attempts := u.backlink_ping_attempts + 1 }

/-- One iteration of the job loop in `_process_method_queue`, given the
rate-limit and URL-lock outcomes and the result of `_execute_method`.
Returns the new database and the requeued jobs with their delays:
rate-limit miss requeues with delay 30, lock miss with delay 15; a
missing or already-indexed URL drops the job; otherwise one IndexingLog
row is appended, the per-method counter incremented, and on failure with
`attempt < MAX_RETRIES - 1` the job is requeued with `attempt + 1` and
delay `min(BACKOFF_BASE * 2**attempt, 3600)`; the status is promoted
`submitted -> indexing`, and to `verifying` after a successful
`google_api` call on an `indexing` URL. -/
def workerStepURL (u : URLRec) (m : Method) (success : Bool) : URLRec :=
  let u1 := increment_attempt_counter u m success
  let u2 := if u1.status = URLStatus.submitted then
              { u1 with status := URLStatus.indexing } else u1
  if m = Method.google_api ∧ success = true ∧
     u2.status = URLStatus.indexing then
    { u2 with status := URLStatus.verifying } else u2

/-- One iteration of the job loop in `_process_method_queue`, given the
rate-limit and URL-lock outcomes and the result of `_execute_method`.
Returns the new database and the requeued jobs with their delays:
rate-limit miss requeues with delay 30, lock miss with delay 15; a
missing or already-indexed URL drops the job; otherwise one IndexingLog
row is appended, the per-method counter incremented, and on failure with
`attempt < MAX_RETRIES - 1` the job is requeued with `attempt + 1` and
delay `min(BACKOFF_BASE * 2**attempt, 3600)`; the status is promoted
`submitted -> indexing`, and to `verifying` after a successful
`google_api` call on an `indexing` URL. -/
def process_method_job (db : DB) (job : Job) (rateOk lockOk : Bool)
    (res : MethodResult) : DB × List (Job × Nat) :=
  if !rateOk then (db, [(job, 30)])
  else if !lockOk then (db, [(job, 15)])
  else
    match findURL db job.url_id with
    | none => (db, [])
    | some u =>
      if u.is_indexed then (db, [])
      else
        let success := res.success
        let log : IndexingLogRec :=
          { url_id := u.id, method := job.method,
            status := if success then "success" else "error" }
        let requeues :=
          if !success && decide (job.attempt < MAX_RETRIES - 1) then
            [({ job with attempt := job.attempt + 1 },
              min (BACKOFF_BASE * 2 ^ job.attempt) 3600)]
          else []
        ({ db with
            urls := updateWhere (fun x => x.id == job.url_id)
              (fun _ => workerStepURL u job.method success) db.urls
            logs := db.logs ++ [log] }, requeues)

/-- Repeatedly run the worker on a job and whatever it requeues, with
every `_execute_method` outcome equal to `res` (for C6: the retry chain
of one failing method-URL pair); stops when nothing is requeued. -/
def runFailChain (res : MethodResult) : DB → Job → Nat → DB
  | db, _, 0 => db
  | db, job, fuel + 1 =>
    match process_method_job db job true true res with
    | (db1, []) => db1
    | (db1, (j, _) :: _) => runFailChain res db1 j fuel

/-! ## Submission dispatcher and pre-check refund
    (src/backend/app/tasks/indexing_tasks.py) -/

/-- The checker's result dict as consumed by the dispatcher. -/
structure CheckResult where
  is_indexed : Option Bool
  method : Option String
  title : Option String
  snippet : Option String
deriving DecidableEq

/-- The transaction appended by `_mark_already_indexed`'s refund block. -/
def precheckRefundTx (uid url_id : Nat) : CreditTransaction :=
  { user_id := uid, amount := 1, type := TransactionType.refund,
    description := "Pre-check: already indexed", url_id := some url_id }

/-- The URL-field updates of `_mark_already_indexed` (everything before
the refund block). -/
def markIndexedURL (u : URLRec) (cr : CheckResult) (now : Nat) : URLRec :=
  { u with is_indexed := true, indexed_at := some now,
           status := URLStatus.indexed, last_checked_at := some now,
           check_count := u.check_count + 1, check_method := cr.method,
           indexed_title := cr.title, indexed_snippet := cr.snippet }

/-- The `_mark_already_indexed` URL update including the refund flag. -/
def precheckStepURL (u : URLRec) (cr : CheckResult) (now : Nat)
    (doRefund : Bool) : URLRec :=
  let u1 := markIndexedURL u cr now
  if doRefund then { u1 with credit_refunded := true } else u1

/-- `indexing_tasks._mark_already_indexed`: marks the URL indexed and,
when `credit_debited and not credit_refunded` and the user row exists,
refunds one credit with a "Pre-check: already indexed" transaction.
The indexed-notification is attempted unconditionally afterwards. -/
def mark_already_indexed (db : DB) (url_id uid : Nat) (cr : CheckResult)
    (now : Nat) : DB :=
  match findURL db url_id with
  | none => db
  | some u =>
    let doRefund := u.credit_debited && !u.credit_refunded &&
      (findUser db uid).isSome
    let u2 := precheckStepURL u cr now doRefund
    { db with
      urls := updateWhere (fun x => x.id == url_id) (fun _ => u2) db.urls
      users := if doRefund then
          updateWhere (fun v => v.id == uid)
            (fun v => { v with credit_balance := v.credit_balance + 1 })
            db.users
        else db.users
      txs := if doRefund then db.txs ++ [precheckRefundTx uid url_id]
        else db.txs }

/-- Outcome of the pre-check `checker.check_url` call in `_submit_urls`:
either a result dict, or a raised exception (which rolls the pre-check
transaction back and submits the URL anyway). -/
inductive PrecheckOutcome
  | ok (cr : CheckResult)
  | failed
deriving DecidableEq

/-- Output of one loop iteration of `_submit_urls`: the new database,
the queue jobs enqueued for this URL, and whether an indexed
notification was emitted. -/
structure DispatchOut where
  db : DB
  jobs : List (Job × Nat)
  notified : Bool
deriving DecidableEq

/-- The `url_obj.status = "submitted"; url_obj.submitted_at = now` pair
of updates shared by the dispatcher and the single-URL resubmission. -/
def markSubmittedURL (now : Nat) (w : URLRec) : URLRec :=
  { w with status := URLStatus.submitted, submitted_at := some now }

/-- One iteration of the URL loop in `indexing_tasks._submit_urls`:
pre-check truthy (`is_indexed` is `True`) marks the URL already indexed,
emits the notification and enqueues nothing; otherwise (falsy result or
raised pre-check) the URL is set to `submitted` with `submitted_at = now`
and the six method jobs are enqueued. A missing URL row is skipped. -/
def dispatch_url (db : DB) (url_id uid : Nat) (pc : PrecheckOutcome)
    (now : Nat) : DispatchOut :=
  match findURL db url_id with
  | none => { db := db, jobs := [], notified := false }
  | some _ =>
    let submitBranch : DispatchOut :=
      { db := { db with
          urls := updateWhere (fun x => x.id == url_id)
            (markSubmittedURL now) db.urls }
        jobs := enqueue_url_methods url_id now
        notified := false }
    match pc with
    | PrecheckOutcome.ok cr =>
      if cr.is_indexed = some true then
        { db := mark_already_indexed db url_id uid cr now,
          jobs := [], notified := true }
      else submitBranch
    | PrecheckOutcome.failed => submitBranch

/-! ## URL API endpoints (src/backend/app/api/urls.py) -/

/-- The ownership join `select(URL).join(Project).where(...,
Project.user_id == user.id)`. -/
def urlOwnedBy (db : DB) (u : URLRec) (uid : Nat) : Bool :=
  match db.projects.find? (fun p => p.id == u.project_id) with
  | some p => p.user_id == uid
  | none => false

/-- `resubmit_url` endpoint: 404 when the URL is not found for this user;
otherwise sets the status to `submitted` (unconditionally) and schedules
`submit_single_url_task`. -/
def resubmit_url (db : DB) (uid url_id : Nat) : Except String DB :=
  match db.urls.find? (fun u => u.id == url_id && urlOwnedBy db u uid) with
  | none => Except.error "URL not found"
  | some _ =>
    Except.ok
      { db with
        urls := updateWhere (fun u => u.id == url_id && urlOwnedBy db u uid)
          (fun u => { u with status := URLStatus.submitted }) db.urls }

/-- `indexing_tasks._submit_single_url`: sets status to `submitted` and
`submitted_at = now` (unconditionally), then enqueues the six jobs. -/
def submit_single_url (db : DB) (url_id now : Nat) : DB × List (Job × Nat) :=
  match findURL db url_id with
  | none => (db, [])
  | some _ =>
    ({ db with
        urls := updateWhere (fun u => u.id == url_id)
          (markSubmittedURL now) db.urls },
     enqueue_url_methods url_id now)

/-- The transaction appended by the `delete_url` endpoint's refund block. -/
def deleteRefundTx (uid url_id : Nat) : CreditTransaction :=
  { user_id := uid, amount := 1, type := TransactionType.refund,
    description := "URL removed from project", url_id := some url_id }

/-- `delete_url` endpoint: 404 when the URL is not found for this user.
Otherwise: when `credit_debited and not credit_refunded` (no condition on
`is_indexed`), credits one unit back and appends a refund transaction;
deletes the URL's indexing logs; detaches the URL's transactions
(`url_id = NULL`, which with the session's autoflush also covers the
just-appended refund row); decrements the project's `total_urls` when
positive; deletes the URL row. Returns the `credit_refunded` flag of the
response. -/
def delete_url (db : DB) (uid url_id : Nat) : Except String (DB × Bool) :=
  match db.urls.find? (fun u => u.id == url_id && urlOwnedBy db u uid) with
  | none => Except.error "URL not found"
  | some u =>
    let doRefund := u.credit_debited && !u.credit_refunded
    let users1 := if doRefund then
        updateWhere (fun v => v.id == uid)
          (fun v => { v with credit_balance := v.credit_balance + 1 })
          db.users
      else db.users
    let txs1 := if doRefund then db.txs ++ [deleteRefundTx uid u.id]
      else db.txs
    let logs1 := db.logs.filter (fun l => !(l.url_id == u.id))
    let txs2 := updateWhere (fun t => t.url_id == some u.id)
      (fun t => { t with url_id := none }) txs1
    let projects1 := updateWhere
      (fun p => p.id == u.project_id && !(p.total_urls == 0))
      (fun p => { p with total_urls := p.total_urls - 1 }) db.projects
    let urls1 := db.urls.filter (fun x => !(x.id == url_id))
    Except.ok ({ users := users1, projects := projects1, urls := urls1,
                 txs := txs2, logs := logs1 }, doRefund)

/-! ## Verification step (src/backend/app/tasks/verification_tasks.py) -/

/-- The URL-row mutations of `_process_url`: the status promotions, the
check bookkeeping and the outcome branch. -/
def verifyStepURL (u : URLRec) (cr : CheckResult) (now : Nat) : URLRec :=
  let u1 := if u.status = URLStatus.submitted then
              { u with status := URLStatus.indexing }
            else if u.status = URLStatus.indexing then
              { u with status := URLStatus.verifying }
            else u
  let u2 := { u1 with last_checked_at := some now,
                      check_count := u1.check_count + 1,
                      check_method := cr.method }
  match cr.is_indexed with
  | some true =>
      { u2 with is_indexed := true, indexed_at := some now,
                status := URLStatus.indexed,
                indexed_title := cr.title,
                indexed_snippet := cr.snippet }
  | none => u2
  | some false =>
      { u2 with status := URLStatus.not_indexed,
                verified_not_indexed := true }

/-- `verification_tasks._process_url` for one URL, with the checker call
outcome as input (`none` = the checker raised, rolling everything back).
Promotes `submitted -> indexing`, `indexing -> verifying`; records the
check; on a truthy result marks indexed and notifies, on `None` leaves
the status, on a falsy result sets `not_indexed` and
`verified_not_indexed = true`. -/
def process_url (db : DB) (url_id : Nat) (pc : Option CheckResult)
    (now : Nat) : DB :=
  match findURL db url_id, pc with
  | none, _ => db
  | some _, none => db
  | some u, some cr =>
    { db with
      urls := updateWhere (fun x => x.id == url_id)
        (fun _ => verifyStepURL u cr now) db.urls }

/-! ## Service account pool
    (src/backend/app/services/service_account_manager.py) -/

/-- `ServiceAccountManager.disable_account`: sets `is_active = False`
for the matching account. -/
def disable_account (sa_id : Nat) (accounts : List ServiceAccount) :
    List ServiceAccount :=
  updateWhere (fun sa => sa.id == sa_id)
    (fun sa => { sa with is_active := false }) accounts

/-- `ServiceAccountManager.reset_all_quotas`: for every account, zeroes
`used_today`, sets `last_reset_at = now` and sets `is_active = True`. -/
def reset_all_quotas (now : Nat) (accounts : List ServiceAccount) :
    List ServiceAccount :=
  accounts.map (fun sa =>
    { sa with used_today := 0, last_reset_at := some now, is_active := true })

/-! ## Fallback indexation probe
    (src/backend/app/services/verification/fallback_check.py) -/

/-- Result dict of `check_indexed_fallback`. -/
structure FallbackResult where
  is_indexed : Option Bool
  method : String
deriving DecidableEq

/-- Python's `needle in hay` substring test on char lists. -/
def containsSub : List Char → List Char → Bool
  | [], needle => needle.isEmpty
  | c :: rest, needle => needle.isPrefixOf (c :: rest) || containsSub rest needle

/-- `str.lower()` as a list of characters. -/
def lowerChars (s : String) : List Char :=
  s.data.map Char.toLower

/-- `check_indexed_fallback`, with the HTTP response body as explicit
input (`none` = the request raised): on a response it returns
`is_indexed = url.lower() in response.text.lower()`; on an exception it
returns `is_indexed = None`. -/
def check_indexed_fallback (url : String) (response : Option String) :
    FallbackResult :=
  match response with
  | some body =>
      { is_indexed := some (containsSub (lowerChars body) (lowerChars url)),
        method := "fallback" }
  | none => { is_indexed := none, method := "fallback" }

/-! ## Operation alphabets for the invariants -/

/-- The balance-changing operations of the credit ledger (claim scope:
debit, refund, purchase/grant, pre-check refund, URL-deletion refund). -/
inductive CreditOp
  | debit (uid : Nat) (url_ids : List Nat)
  | refund (uid : Nat) (url_ids : List Nat)
  | grant (uid : Nat) (amount : Int) (descr : String)
  | precheck (url_id uid : Nat) (cr : CheckResult) (now : Nat)
  | remove (uid url_id : Nat)
deriving DecidableEq

/-- Apply a credit operation; a raised exception leaves the database
unchanged (the raise happens before any mutation / the transaction is
rolled back). -/
def applyCreditOp (db : DB) : CreditOp → DB
  | CreditOp.debit uid ids =>
    match debit_credits db uid ids with
    | Except.ok db1 => db1
    | Except.error _ => db
  | CreditOp.refund uid ids => (refund_credits db uid ids).1
  | CreditOp.grant uid amount descr =>
    match add_credits db uid amount descr with
    | Except.ok db1 => db1
    | Except.error _ => db
  | CreditOp.precheck url_id uid cr now =>
    mark_already_indexed db url_id uid cr now
  | CreditOp.remove uid url_id =>
    match delete_url db uid url_id with
    | Except.ok (db1, _) => db1
    | Except.error _ => db

/-- Every operation of the system that touches URL rows. -/
inductive SysOp
  | credit (op : CreditOp)
  | resubmit (uid url_id : Nat)
  | submitSingle (url_id now : Nat)
  | worker (job : Job) (rateOk lockOk : Bool) (res : MethodResult)
  | verifyStep (url_id : Nat) (pc : Option CheckResult) (now : Nat)
  | dispatch (url_id uid : Nat) (pc : PrecheckOutcome) (now : Nat)
deriving DecidableEq

/-- Apply a system operation to the database. -/
def applySysOp (db : DB) : SysOp → DB
  | SysOp.credit op => applyCreditOp db op
  | SysOp.resubmit uid url_id =>
    match resubmit_url db uid url_id with
    | Except.ok db1 => db1
    | Except.error _ => db
  | SysOp.submitSingle url_id now => (submit_single_url db url_id now).1
  | SysOp.worker job rateOk lockOk res =>
    (process_method_job db job rateOk lockOk res).1
  | SysOp.verifyStep url_id pc now => process_url db url_id pc now
  | SysOp.dispatch url_id uid pc now => (dispatch_url db url_id uid pc now).db

/-- Spec invariant 1: `balance == initial_grant + sum of transaction
amounts` for every user; registration creates users with balance 100 and
no transactions. -/
def balanceInv (db : DB) : Prop :=
  ∀ u ∈ db.users, u.credit_balance = 100 + txSum db.txs u.id

instance : DecidablePred balanceInv := fun db =>
  List.decidableBAll _ db.users

/-- Number of refund transactions attached to a URL id. -/
def refundTxCount (txs : List CreditTransaction) (url_id : Nat) : Nat :=
  (txs.filter (fun t =>
    t.type == TransactionType.refund && t.url_id == some url_id)).length

/-- Spec invariant 2: for every URL, at most one refund transaction
exists and it exists iff `credit_refunded = true`. -/
def refundInv (db : DB) : Prop :=
  ∀ u ∈ db.urls,
    refundTxCount db.txs u.id = (if u.credit_refunded then 1 else 0)

instance : DecidablePred refundInv := fun db =>
  List.decidableBAll _ db.urls

/-! ## Concrete states used by the evaluations and counterexamples -/

/-- A freshly created URL row: every column at its model default. -/
def baseURL (i pid : Nat) (s : String) : URLRec :=
  { id := i, project_id := pid, url := s, status := URLStatus.pending,
    google_api_attempts := 0, google_api_last_status := none,
    indexnow_attempts := 0, indexnow_last_status := none,
    sitemap_ping_attempts := 0, social_signal_attempts := 0,
    backlink_ping_attempts := 0, is_indexed := false, indexed_at := none,
    last_checked_at := none, check_count := 0, check_method := none,
    indexed_title := none, indexed_snippet := none, credit_debited := false,
    credit_refunded := false, pre_indexed := false,
    verified_not_indexed := false, submitted_at := none }

/-- A submitted, debited, non-indexed URL for the IndexNow scenario. -/
def c1url : URLRec :=
  { baseURL 10 1 "https://a.io/p" with
    status := URLStatus.submitted
    credit_debited := true
    submitted_at := some 0 }

def c1db : DB :=
  { users := [{ id := 1, credit_balance := 9 }],
    projects := [{ id := 1, user_id := 1, total_urls := 1 }],
    urls := [c1url], txs := [debitTx 1 10], logs := [] }

/-- The IndexNow job at its first attempt. -/
def c1job : Job := { url_id := 10, method := Method.indexnow, attempt := 0 }

/-- An already-indexed URL for the resubmission scenario. -/
def c5url : URLRec :=
  { baseURL 30 3 "https://c.io/r" with
    status := URLStatus.indexed
    is_indexed := true
    indexed_at := some 5
    credit_debited := true }

def c5db : DB :=
  { users := [{ id := 3, credit_balance := 10 }],
    projects := [{ id := 3, user_id := 3, total_urls := 1 }],
    urls := [c5url], txs := [debitTx 3 30], logs := [] }

/-- A disabled service account (the row records no reason for the
disable, so this covers in particular an account disabled by an admin). -/
def c8acc : ServiceAccount :=
  { id := 1, daily_quota := 200, used_today := 5, is_active := false,
    last_reset_at := none }

/-- A pending, debited URL whose pre-check comes back positive. -/
def c9url : URLRec :=
  { baseURL 20 2 "https://b.io/q" with credit_debited := true }

def c9db : DB :=
  { users := [{ id := 2, credit_balance := 50 }],
    projects := [{ id := 2, user_id := 2, total_urls := 1 }],
    urls := [c9url], txs := [debitTx 2 20], logs := [] }

/-- A positive checker result with evidence. -/
def c9cr : CheckResult :=
  { is_indexed := some true, method := some "gsc_inspection",
    title := some "T", snippet := some "S" }

/-! ## List bookkeeping lemmas -/

theorem mem_updateWhere {α : Type} {p : α → Bool} {f : α → α} {l : List α}
    {x : α} (hx : x ∈ updateWhere p f l) :
    ∃ y ∈ l, x = if p y then f y else y := by
  obtain ⟨y, hy, h⟩ := List.mem_map.mp hx
  exact ⟨y, hy, h.symm⟩

theorem find?_updateWhere {α : Type} (p : α → Bool) (f : α → α)
    (l : List α) (hp : ∀ x, p x = true → p (f x) = true) :
    (updateWhere p f l).find? p = (l.find? p).map f := by
  induction l with
  | nil => rfl
  | cons x xs ih =>
    cases hx : p x with
    | true =>
      rw [updateWhere, List.map_cons, if_pos hx,
        List.find?_cons_of_pos _ (hp x hx), List.find?_cons_of_pos _ hx]
      rfl
    | false =>
      rw [updateWhere, List.map_cons, if_neg (by simp [hx]),
        List.find?_cons_of_neg _ (by simp [hx]),
        List.find?_cons_of_neg _ (by simp [hx])]
      exact ih

theorem find?_updateWhere_const {α : Type} {p : α → Bool} {y : α}
    {l : List α} {x : α} (hy : p y = true) (hfind : l.find? p = some x) :
    (updateWhere p (fun _ => y) l).find? p = some y := by
  rw [find?_updateWhere p (fun _ => y) l (fun _ _ => hy), hfind]
  rfl

theorem updateWhere_eq_of_none {α : Type} (p : α → Bool) (f : α → α)
    (l : List α) (h : ∀ x ∈ l, p x = false) : updateWhere p f l = l := by
  induction l with
  | nil => rfl
  | cons x xs ih =>
    rw [updateWhere, List.map_cons,
      if_neg (by simp [h x (List.mem_cons_self x xs)])]
    exact congrArg (x :: ·) (ih fun z hz => h z (List.mem_cons_of_mem x hz))

theorem updateWhere_id {α : Type} (p : α → Bool) (f : α → α) (l : List α)
    (h : ∀ x, f x = x) : updateWhere p f l = l := by
  induction l with
  | nil => rfl
  | cons x xs ih =>
    rw [updateWhere, List.map_cons]
    have : (if p x then f x else x) = x := by
      cases p x <;> simp [h x]
    rw [this]
    exact congrArg (x :: ·) ih

theorem txSum_append (a b : List CreditTransaction) (uid : Nat) :
    txSum (a ++ b) uid = txSum a uid + txSum b uid := by
  induction a with
  | nil => simp [txSum]
  | cons t ts ih => simp [txSum, ih]; ring

theorem txSum_eq_zero (T : List CreditTransaction) (uid v : Nat)
    (hT : ∀ t ∈ T, t.user_id = uid) (hv : v ≠ uid) : txSum T v = 0 := by
  induction T with
  | nil => rfl
  | cons t ts ih =>
    have ht : t.user_id = uid := hT t (List.mem_cons_self t ts)
    rw [txSum, if_neg (by rw [ht]; exact fun h => hv h.symm),
      ih fun z hz => hT z (List.mem_cons_of_mem t hz)]
    ring

theorem txSum_map_const {β : Type} (g : β → CreditTransaction)
    (l : List β) (uid : Nat) (c : Int)
    (h : ∀ b, (g b).user_id = uid ∧ (g b).amount = c) :
    txSum (l.map g) uid = c * l.length := by
  induction l with
  | nil => simp [txSum]
  | cons b bs ih =>
    rw [List.map_cons, txSum, if_pos (h b).1, (h b).2, ih,
      List.length_cons]
    push_cast
    ring

theorem txSum_updateWhere (p : CreditTransaction → Bool)
    (f : CreditTransaction → CreditTransaction)
    (l : List CreditTransaction) (v : Nat)
    (hf : ∀ t, (f t).user_id = t.user_id ∧ (f t).amount = t.amount) :
    txSum (updateWhere p f l) v = txSum l v := by
  induction l with
  | nil => rfl
  | cons t ts ih =>
    rw [updateWhere, List.map_cons, txSum, txSum, ← ih]
    cases hp : p t <;> simp [(hf t).1, (hf t).2, updateWhere]

/-- The balance / transaction-log shift performed by every ledger
operation: bump the matching user's balance by `δ` and append
transactions summing to `δ` for that user and to 0 for all others. -/
theorem balance_shift (users : List UserRec) (txs T : List CreditTransaction)
    (uid : Nat) (δ : Int)
    (h : ∀ u ∈ users, u.credit_balance = 100 + txSum txs u.id)
    (hsum : txSum T uid = δ)
    (hother : ∀ v, v ≠ uid → txSum T v = 0) :
    ∀ u ∈ updateWhere (fun v => v.id == uid)
        (fun v => { v with credit_balance := v.credit_balance + δ }) users,
      u.credit_balance = 100 + txSum (txs ++ T) u.id := by
  intro u hu
  obtain ⟨y, hy, hcase⟩ := mem_updateWhere hu
  rw [txSum_append]
  by_cases hid : y.id = uid
  · rw [if_pos (by simp [hid])] at hcase
    rw [hcase]
    show y.credit_balance + δ = 100 + (txSum txs y.id + txSum T y.id)
    rw [h y hy, hid, hsum]
    ring
  · rw [if_neg (by simp [hid])] at hcase
    rw [hcase]
    rw [h y hy, hother y.id hid]
    ring

/-! ## Branch equations for the embedded operations -/

theorem debit_credits_no_user (db : DB) (uid : Nat) (ids : List Nat)
    (h : findUser db uid = none) :
    debit_credits db uid ids = Except.error "InsufficientCredits" := by
  unfold debit_credits
  rw [h]

theorem debit_credits_insufficient (db : DB) (uid : Nat) (ids : List Nat)
    (user : UserRec) (h : findUser db uid = some user)
    (hb : user.credit_balance < (ids.length : Int)) :
    debit_credits db uid ids = Except.error "InsufficientCredits" := by
  simp only [debit_credits, h]
  rw [if_pos hb]

theorem debit_credits_ok (db : DB) (uid : Nat) (ids : List Nat)
    (user : UserRec) (h : findUser db uid = some user)
    (hb : ¬ user.credit_balance < (ids.length : Int)) :
    debit_credits db uid ids = Except.ok
      { db with
        users := updateWhere (fun v => v.id == uid)
          (fun v => { v with
            credit_balance := v.credit_balance - (ids.length : Int) })
          db.users
        urls := updateWhere (fun u => ids.contains u.id)
          (fun u => { u with credit_debited := true }) db.urls
        txs := db.txs ++ ids.map (debitTx uid) } := by
  simp only [debit_credits, h]
  rw [if_neg hb]

theorem refund_credits_no_user (db : DB) (uid : Nat) (ids : List Nat)
    (h : findUser db uid = none) :
    refund_credits db uid ids = (db, 0) := by
  unfold refund_credits
  rw [h]

theorem refund_credits_run (db : DB) (uid : Nat) (ids : List Nat)
    (user : UserRec) (h : findUser db uid = some user) :
    refund_credits db uid ids =
      ({ db with
          users := updateWhere (fun v => v.id == uid)
            (fun v => { v with credit_balance := v.credit_balance +
              ((db.urls.filter (refundSel ids)).length : Int) }) db.users
          urls := updateWhere (refundSel ids)
            (fun u =>
              { u with credit_refunded := true,
                       status := URLStatus.recredited }) db.urls
          txs := db.txs ++ (db.urls.filter (refundSel ids)).map
            (fun u => refundTx uid u.id) },
       (db.urls.filter (refundSel ids)).length) := by
  simp only [refund_credits, h]

theorem add_credits_no_user (db : DB) (uid : Nat) (amount : Int)
    (descr : String) (h : findUser db uid = none) :
    add_credits db uid amount descr = Except.error "User not found" := by
  unfold add_credits
  rw [h]

theorem add_credits_ok (db : DB) (uid : Nat) (amount : Int) (descr : String)
    (user : UserRec) (h : findUser db uid = some user) :
    add_credits db uid amount descr = Except.ok
      { db with
        users := updateWhere (fun v => v.id == uid)
          (fun v => { v with credit_balance := v.credit_balance + amount })
          db.users
        txs := db.txs ++
          [{ user_id := uid, amount := amount,
             type := TransactionType.purchase, description := descr,
             url_id := none }] } := by
  unfold add_credits
  rw [h]

theorem mark_already_indexed_not_found (db : DB) (url_id uid : Nat)
    (cr : CheckResult) (now : Nat) (h : findURL db url_id = none) :
    mark_already_indexed db url_id uid cr now = db := by
  unfold mark_already_indexed
  rw [h]

theorem mark_already_indexed_found (db : DB) (url_id uid : Nat)
    (cr : CheckResult) (now : Nat) (u : URLRec)
    (h : findURL db url_id = some u) :
    mark_already_indexed db url_id uid cr now =
      { db with
        urls := updateWhere (fun x => x.id == url_id)
          (fun _ => precheckStepURL u cr now
            (u.credit_debited && !u.credit_refunded &&
              (findUser db uid).isSome)) db.urls
        users := if u.credit_debited && !u.credit_refunded &&
            (findUser db uid).isSome then
            updateWhere (fun v => v.id == uid)
              (fun v => { v with credit_balance := v.credit_balance + 1 })
              db.users
          else db.users
        txs := if u.credit_debited && !u.credit_refunded &&
            (findUser db uid).isSome then
            db.txs ++ [precheckRefundTx uid url_id]
          else db.txs } := by
  unfold mark_already_indexed
  rw [h]

theorem delete_url_not_found (db : DB) (uid url_id : Nat)
    (h : db.urls.find? (fun x => x.id == url_id && urlOwnedBy db x uid) =
      none) :
    delete_url db uid url_id = Except.error "URL not found" := by
  unfold delete_url
  rw [h]

theorem delete_url_found (db : DB) (uid url_id : Nat) (u : URLRec)
    (h : db.urls.find? (fun x => x.id == url_id && urlOwnedBy db x uid) =
      some u) :
    delete_url db uid url_id = Except.ok
      ({ users := if u.credit_debited && !u.credit_refunded then
            updateWhere (fun v => v.id == uid)
              (fun v => { v with credit_balance := v.credit_balance + 1 })
              db.users
          else db.users,
         projects := updateWhere
           (fun p => p.id == u.project_id && !(p.total_urls == 0))
           (fun p => { p with total_urls := p.total_urls - 1 }) db.projects,
         urls := db.urls.filter (fun x => !(x.id == url_id)),
         txs := updateWhere (fun t => t.url_id == some u.id)
           (fun t => { t with url_id := none })
           (if u.credit_debited && !u.credit_refunded then
             db.txs ++ [deleteRefundTx uid u.id]
           else db.txs),
         logs := db.logs.filter (fun l => !(l.url_id == u.id)) },
       u.credit_debited && !u.credit_refunded) := by
  unfold delete_url
  rw [h]

theorem resubmit_url_not_found (db : DB) (uid url_id : Nat)
    (h : db.urls.find? (fun x => x.id == url_id && urlOwnedBy db x uid) =
      none) :
    resubmit_url db uid url_id = Except.error "URL not found" := by
  unfold resubmit_url
  rw [h]

theorem resubmit_url_found (db : DB) (uid url_id : Nat) (u : URLRec)
    (h : db.urls.find? (fun x => x.id == url_id && urlOwnedBy db x uid) =
      some u) :
    resubmit_url db uid url_id = Except.ok
      { db with
        urls := updateWhere (fun x => x.id == url_id && urlOwnedBy db x uid)
          (fun x => { x with status := URLStatus.submitted }) db.urls } := by
  unfold resubmit_url
  rw [h]

theorem process_url_found (db : DB) (url_id : Nat) (cr : CheckResult)
    (now : Nat) (u : URLRec) (h : findURL db url_id = some u) :
    process_url db url_id (some cr) now =
      { db with
        urls := updateWhere (fun x => x.id == url_id)
          (fun _ => verifyStepURL u cr now) db.urls } := by
  unfold process_url
  rw [h]

theorem process_method_job_run (db : DB) (job : Job) (res : MethodResult)
    (u : URLRec) (hfind : findURL db job.url_id = some u)
    (hidx : u.is_indexed = false) :
    process_method_job db job true true res =
      ({ db with
          urls := updateWhere (fun x => x.id == job.url_id)
            (fun _ => workerStepURL u job.method res.success) db.urls
          logs := db.logs ++
            [{ url_id := u.id, method := job.method,
               status := if res.success then "success" else "error" }] },
       if !res.success && decide (job.attempt < MAX_RETRIES - 1) then
         [({ job with attempt := job.attempt + 1 },
           min (BACKOFF_BASE * 2 ^ job.attempt) 3600)]
       else []) := by
  simp only [process_method_job, hfind, hidx, Bool.not_true,
    Bool.false_eq_true, if_false]

/-! ## Credit conservation -/

theorem txSum_single_self (t : CreditTransaction) :
    txSum [t] t.user_id = t.amount := by
  simp [txSum]

theorem txSum_single_ne (t : CreditTransaction) (v : Nat)
    (hv : t.user_id ≠ v) : txSum [t] v = 0 := by
  simp [txSum, hv]

/-- `balance_shift` in the form produced by `debit_credits` (a
subtraction instead of adding a negative). -/
theorem balance_shift_sub (users : List UserRec)
    (txs T : List CreditTransaction) (uid : Nat) (c : Int)
    (h : ∀ u ∈ users, u.credit_balance = 100 + txSum txs u.id)
    (hsum : txSum T uid = -c)
    (hother : ∀ v, v ≠ uid → txSum T v = 0) :
    ∀ u ∈ updateWhere (fun v => v.id == uid)
        (fun v => { v with credit_balance := v.credit_balance - c }) users,
      u.credit_balance = 100 + txSum (txs ++ T) u.id := by
  have hfun : (fun v : UserRec =>
      { v with credit_balance := v.credit_balance - c }) =
      (fun v : UserRec =>
      { v with credit_balance := v.credit_balance + (-c) }) := by
    funext v
    simp [sub_eq_add_neg]
  intro u hu
  rw [hfun] at hu
  exact balance_shift users txs T uid (-c) h hsum hother u hu

/-- Every ledger operation preserves the balance invariant: whatever it
adds to a user's balance it also appends as transactions. -/
theorem balanceInv_applyCreditOp (db : DB) (op : CreditOp)
    (h : balanceInv db) : balanceInv (applyCreditOp db op) := by
  cases op with
  | debit uid ids =>
    cases hfu : findUser db uid with
    | none =>
      simp only [applyCreditOp, debit_credits_no_user db uid ids hfu]
      exact h
    | some user =>
      by_cases hb : user.credit_balance < (ids.length : Int)
      · simp only [applyCreditOp,
          debit_credits_insufficient db uid ids user hfu hb]
        exact h
      · simp only [applyCreditOp, debit_credits_ok db uid ids user hfu hb]
        intro x hx
        refine balance_shift_sub db.users db.txs (ids.map (debitTx uid))
          uid (ids.length : Int) h ?_ ?_ x hx
        · rw [txSum_map_const (debitTx uid) ids uid (-1)
            (fun b => ⟨rfl, rfl⟩)]
          ring
        · intro v hv
          refine txSum_eq_zero _ uid v ?_ hv
          intro t ht
          obtain ⟨w, _, rfl⟩ := List.mem_map.mp ht
          rfl
  | refund uid ids =>
    cases hfu : findUser db uid with
    | none =>
      simp only [applyCreditOp, refund_credits_no_user db uid ids hfu]
      exact h
    | some user =>
      simp only [applyCreditOp, refund_credits_run db uid ids user hfu]
      intro x hx
      refine balance_shift db.users db.txs _ uid
        (((db.urls.filter (refundSel ids)).length : Int)) h ?_ ?_ x hx
      · rw [txSum_map_const (fun w : URLRec => refundTx uid w.id)
          (db.urls.filter (refundSel ids)) uid 1 (fun b => ⟨rfl, rfl⟩)]
        ring
      · intro v hv
        refine txSum_eq_zero _ uid v ?_ hv
        intro t ht
        obtain ⟨w, _, rfl⟩ := List.mem_map.mp ht
        rfl
  | grant uid amount descr =>
    cases hfu : findUser db uid with
    | none =>
      simp only [applyCreditOp, add_credits_no_user db uid amount descr hfu]
      exact h
    | some user =>
      simp only [applyCreditOp, add_credits_ok db uid amount descr user hfu]
      intro x hx
      refine balance_shift db.users db.txs _ uid amount h ?_ ?_ x hx
      · exact txSum_single_self _
      · intro v hv
        exact txSum_single_ne _ v fun hh => hv hh.symm
  | precheck url_id uid cr now =>
    cases hfu : findURL db url_id with
    | none =>
      simp only [applyCreditOp,
        mark_already_indexed_not_found db url_id uid cr now hfu]
      exact h
    | some u =>
      simp only [applyCreditOp,
        mark_already_indexed_found db url_id uid cr now u hfu]
      by_cases hdo : (u.credit_debited && !u.credit_refunded &&
          (findUser db uid).isSome) = true
      · rw [if_pos hdo, if_pos hdo]
        intro x hx
        refine balance_shift db.users db.txs [precheckRefundTx uid url_id]
          uid 1 h ?_ ?_ x hx
        · exact txSum_single_self _
        · intro v hv
          exact txSum_single_ne _ v fun hh => hv hh.symm
      · rw [if_neg hdo, if_neg hdo]
        exact h
  | remove uid url_id =>
    cases hf : db.urls.find?
        (fun x => x.id == url_id && urlOwnedBy db x uid) with
    | none =>
      simp only [applyCreditOp, delete_url_not_found db uid url_id hf]
      exact h
    | some u =>
      simp only [applyCreditOp, delete_url_found db uid url_id u hf]
      intro x hx
      show x.credit_balance = 100 + txSum (updateWhere
        (fun t => t.url_id == some u.id)
        (fun t => { t with url_id := none })
        (if (u.credit_debited && !u.credit_refunded) = true then
          db.txs ++ [deleteRefundTx uid u.id] else db.txs)) x.id
      rw [txSum_updateWhere (fun t => t.url_id == some u.id)
        (fun t => { t with url_id := none }) _ x.id (fun t => ⟨rfl, rfl⟩)]
      by_cases hdo : (u.credit_debited && !u.credit_refunded) = true
      · rw [if_pos hdo]
        rw [if_pos hdo] at hx
        exact balance_shift db.users db.txs [deleteRefundTx uid u.id]
          uid 1 h (txSum_single_self _)
          (fun v hv => txSum_single_ne _ v fun hh => hv hh.symm) x hx
      · rw [if_neg hdo]
        rw [if_neg hdo] at hx
        exact h x hx

/-- C2: credit conservation. Starting from any state satisfying
`balance = 100 + sum of the user's transaction amounts` (which holds at
registration: balance 100, no transactions), every sequence of ledger
operations — debit, refund, purchase/grant, pre-check refund, deletion
refund — preserves it: each operation appends transactions whose signed
amounts sum exactly to its balance change. -/
theorem c2_credit_conservation (ops : List CreditOp) (db : DB)
    (h : balanceInv db) : balanceInv (ops.foldl applyCreditOp db) := by
  induction ops generalizing db with
  | nil => exact h
  | cons op rest ih => exact ih (applyCreditOp db op) (balanceInv_applyCreditOp db op h)

def c2db : DB :=
  { users := [{ id := 1, credit_balance := 100 }],
    projects := [{ id := 1, user_id := 1, total_urls := 2 }],
    urls := [baseURL 10 1 "https://a.io/1", baseURL 11 1 "https://a.io/2"],
    txs := [], logs := [] }

def c2ops : List CreditOp :=
  [CreditOp.debit 1 [10, 11], CreditOp.refund 1 [10],
   CreditOp.grant 1 20 "Credit purchase",
   CreditOp.precheck 11 1 { is_indexed := some true, method := some "cse",
                            title := none, snippet := none } 50,
   CreditOp.remove 1 11]

/-- Witness: conservation along a concrete run of all five operations. -/
theorem c2_credit_conservation_witness :
    balanceInv (c2ops.foldl applyCreditOp c2db) :=
  c2_credit_conservation c2ops c2db (by decide)

/-! ## C3: the debit contract -/

/-- C3: `debit_credits` raises `InsufficientCredits` if and only if the
user is missing or the balance is below `|url_ids|`, and the raise
happens before any mutation, so the state is unchanged (all-or-nothing);
on success it decrements the balance by exactly `|url_ids|`, appends
exactly one debit transaction (amount -1) per url id, sets
`credit_debited = true` on each of the given URLs and leaves every other
URL row unchanged. -/
theorem c3_debit_credits_spec (db : DB) (uid : Nat) (ids : List Nat) :
    (findUser db uid = none →
      debit_credits db uid ids = Except.error "InsufficientCredits" ∧
      applyCreditOp db (CreditOp.debit uid ids) = db) ∧
    (∀ user, findUser db uid = some user →
      (user.credit_balance < (ids.length : Int) →
        debit_credits db uid ids = Except.error "InsufficientCredits" ∧
        applyCreditOp db (CreditOp.debit uid ids) = db) ∧
      ((ids.length : Int) ≤ user.credit_balance →
        ∃ db1, debit_credits db uid ids = Except.ok db1 ∧
          (findUser db1 uid).map UserRec.credit_balance =
            some (user.credit_balance - (ids.length : Int)) ∧
          db1.txs = db.txs ++ ids.map (debitTx uid) ∧
          (∀ x ∈ db1.urls, x.id ∈ ids → x.credit_debited = true) ∧
          (∀ x ∈ db1.urls, x.id ∉ ids → x ∈ db.urls))) := by
  constructor
  · intro h0
    refine ⟨debit_credits_no_user db uid ids h0, ?_⟩
    simp only [applyCreditOp, debit_credits_no_user db uid ids h0]
  · intro user hfu
    constructor
    · intro hb
      refine ⟨debit_credits_insufficient db uid ids user hfu hb, ?_⟩
      simp only [applyCreditOp,
        debit_credits_insufficient db uid ids user hfu hb]
    · intro hge
      have hb : ¬ user.credit_balance < (ids.length : Int) := not_lt.mpr hge
      refine ⟨_, debit_credits_ok db uid ids user hfu hb, ?_, rfl, ?_, ?_⟩
      · have hfind : (updateWhere (fun v => v.id == uid)
            (fun v => { v with
              credit_balance := v.credit_balance - (ids.length : Int) })
            db.users).find? (fun v => v.id == uid) =
            some { user with
              credit_balance := user.credit_balance - (ids.length : Int) } := by
          have hfu1 : db.users.find? (fun v => v.id == uid) = some user := hfu
          rw [find?_updateWhere (fun v => v.id == uid)
            (fun v => { v with
              credit_balance := v.credit_balance - (ids.length : Int) })
            db.users (fun x hx => hx), hfu1]
          rfl
        show ((updateWhere (fun v => v.id == uid)
            (fun v => { v with
              credit_balance := v.credit_balance - (ids.length : Int) })
            db.users).find? (fun v => v.id == uid)).map
            UserRec.credit_balance = _
        rw [hfind]
        rfl
      · intro x hx hmem
        obtain ⟨y, hy, hcase⟩ := mem_updateWhere hx
        by_cases hc : ids.contains y.id = true
        · rw [if_pos hc] at hcase
          rw [hcase]
        · rw [if_neg hc] at hcase
          exact absurd (List.elem_iff.mpr (hcase ▸ hmem)) hc
      · intro x hx hmem
        obtain ⟨y, hy, hcase⟩ := mem_updateWhere hx
        by_cases hc : ids.contains y.id = true
        · rw [if_pos hc] at hcase
          exact absurd (by
            have hyid : x.id = y.id := by rw [hcase]
            exact hyid ▸ List.elem_iff.mp hc) hmem
        · rw [if_neg hc] at hcase
          exact hcase ▸ hy

def c3db : DB :=
  { users := [{ id := 1, credit_balance := 5 }],
    projects := [{ id := 1, user_id := 1, total_urls := 3 }],
    urls := [baseURL 10 1 "https://a.io/1", baseURL 11 1 "https://a.io/2",
             baseURL 12 1 "https://a.io/3"],
    txs := [], logs := [] }

/-- Witness: a successful concrete debit of two URLs out of three. -/
theorem c3_debit_credits_spec_witness :
    ∃ db1, debit_credits c3db 1 [10, 11] = Except.ok db1 ∧
      (findUser db1 1).map UserRec.credit_balance =
        some ((5 : Int) - (([10, 11] : List Nat).length : Int)) := by
  obtain ⟨db1, hok, hbal, _, _, _⟩ :=
    ((c3_debit_credits_spec c3db 1 [10, 11]).2
      { id := 1, credit_balance := 5 } (by decide)).2 (by decide)
  exact ⟨db1, hok, hbal⟩

/-! ## C10: the delete-URL refund -/

/-- The state `delete_url` leaves behind when it refunds (the
`delete_url_found` right-hand side with both refund branches taken). -/
def deleteResultDB (db : DB) (uid url_id : Nat) (u : URLRec) : DB :=
  { users := updateWhere (fun v => v.id == uid)
      (fun v => { v with credit_balance := v.credit_balance + 1 }) db.users
    projects := updateWhere
      (fun p => p.id == u.project_id && !(p.total_urls == 0))
      (fun p => { p with total_urls := p.total_urls - 1 }) db.projects
    urls := db.urls.filter (fun x => !(x.id == url_id))
    txs := updateWhere (fun t => t.url_id == some u.id)
      (fun t => { t with url_id := none })
      (db.txs ++ [deleteRefundTx uid u.id])
    logs := db.logs.filter (fun l => !(l.url_id == u.id)) }

/-- C10: for a URL with `credit_debited` and not `credit_refunded`, the
delete endpoint refunds one credit and appends one refund transaction —
with no condition on `is_indexed` (the `¬is_indexed` guard belongs to
`refund_credits` only) — and the deletion path cannot refund the same
URL twice: the row is gone, so a second call 404s and changes nothing. -/
theorem c10_delete_url_refund (db : DB) (uid url_id : Nat) (u : URLRec)
    (user : UserRec)
    (hfind : db.urls.find? (fun x => x.id == url_id && urlOwnedBy db x uid) =
      some u)
    (hdeb : u.credit_debited = true) (href : u.credit_refunded = false)
    (huser : findUser db uid = some user) :
    ∃ db1, delete_url db uid url_id = Except.ok (db1, true) ∧
      (findUser db1 uid).map UserRec.credit_balance =
        some (user.credit_balance + 1) ∧
      db1.txs = updateWhere (fun t => t.url_id == some u.id)
          (fun t => { t with url_id := none }) db.txs ++
        [{ user_id := uid, amount := 1, type := TransactionType.refund,
           description := "URL removed from project", url_id := none }] ∧
      delete_url db1 uid url_id = Except.error "URL not found" ∧
      applyCreditOp db1 (CreditOp.remove uid url_id) = db1 := by
  have hdo : (u.credit_debited && !u.credit_refunded) = true := by
    rw [hdeb, href]
    rfl
  refine ⟨deleteResultDB db uid url_id u, ?_, ?_, ?_, ?_, ?_⟩
  · rw [delete_url_found db uid url_id u hfind, hdo]
    rfl
  · have huser1 : db.users.find? (fun v => v.id == uid) = some user := huser
    show ((updateWhere (fun v => v.id == uid)
        (fun v => { v with credit_balance := v.credit_balance + 1 })
        db.users).find? (fun v => v.id == uid)).map UserRec.credit_balance = _
    rw [find?_updateWhere (fun v => v.id == uid)
      (fun v => { v with credit_balance := v.credit_balance + 1 })
      db.users (fun x hx => hx), huser1]
    rfl
  · show updateWhere (fun t => t.url_id == some u.id)
      (fun t => { t with url_id := none })
      (db.txs ++ [deleteRefundTx uid u.id]) = _
    simp only [updateWhere, List.map_append, List.map_cons, List.map_nil]
    rw [if_pos (by simp [deleteRefundTx])]
    rfl
  · apply delete_url_not_found
    refine List.find?_eq_none.mpr ?_
    intro x hx
    have hxid : (x.id == url_id) = false := by
      have := (List.mem_filter.mp hx).2
      cases hcm : (x.id == url_id) with
      | true => rw [hcm] at this; exact absurd this (by decide)
      | false => rfl
    simp [hxid]
  · have hnone : (deleteResultDB db uid url_id u).urls.find?
        (fun x => x.id == url_id &&
          urlOwnedBy (deleteResultDB db uid url_id u) x uid) = none := by
      refine List.find?_eq_none.mpr ?_
      intro x hx
      have hxid : (x.id == url_id) = false := by
        have := (List.mem_filter.mp hx).2
        cases hcm : (x.id == url_id) with
        | true => rw [hcm] at this; exact absurd this (by decide)
        | false => rfl
      simp [hxid]
    simp only [applyCreditOp, delete_url_not_found _ uid url_id hnone]

def c10url : URLRec :=
  { baseURL 40 4 "https://d.io/s" with
    status := URLStatus.indexed
    is_indexed := true
    indexed_at := some 9
    credit_debited := true }

def c10db : DB :=
  { users := [{ id := 4, credit_balance := 7 }],
    projects := [{ id := 4, user_id := 4, total_urls := 1 }],
    urls := [c10url], txs := [debitTx 4 40], logs := [] }

/-- Witness: deleting a concrete URL that is already indexed still
refunds the credit. -/
theorem c10_delete_url_refund_witness :
    ∃ db1, delete_url c10db 4 40 = Except.ok (db1, true) ∧
      (findUser db1 4).map UserRec.credit_balance = some ((7 : Int) + 1) := by
  obtain ⟨db1, hok, hbal, _, _, _⟩ :=
    c10_delete_url_refund c10db 4 40 c10url { id := 4, credit_balance := 7 }
      (by decide) (by decide) (by decide) (by decide)
  exact ⟨db1, hok, hbal⟩

/-! ## C6: retry policy and retry cap -/

theorem increment_attempt_counter_is_indexed (u : URLRec) (m : Method)
    (s : Bool) :
    (increment_attempt_counter u m s).is_indexed = u.is_indexed := by
  cases m <;> rfl

theorem increment_attempt_counter_id (u : URLRec) (m : Method) (s : Bool) :
    (increment_attempt_counter u m s).id = u.id := by
  cases m <;> rfl

theorem workerStepURL_is_indexed (u : URLRec) (m : Method) (s : Bool) :
    (workerStepURL u m s).is_indexed = u.is_indexed := by
  simp only [workerStepURL]
  split <;> split <;>
    simp [increment_attempt_counter_is_indexed]

theorem workerStepURL_id (u : URLRec) (m : Method) (s : Bool) :
    (workerStepURL u m s).id = u.id := by
  simp only [workerStepURL]
  split <;> split <;>
    simp [increment_attempt_counter_id]

/-- The worker iteration on a failing execution, with the retry window
condition reduced to `attempt < 2`. -/
theorem process_method_job_fail (db : DB) (job : Job) (res : MethodResult)
    (u : URLRec) (hfind : findURL db job.url_id = some u)
    (hidx : u.is_indexed = false) (hfail : res.success = false) :
    process_method_job db job true true res =
      ({ db with
          urls := updateWhere (fun x => x.id == job.url_id)
            (fun _ => workerStepURL u job.method false) db.urls
          logs := db.logs ++
            [{ url_id := u.id, method := job.method, status := "error" }] },
       if job.attempt < 2 then
         [({ job with attempt := job.attempt + 1 },
           min (300 * 2 ^ job.attempt) 3600)]
       else []) := by
  rw [process_method_job_run db job res u hfind hidx, hfail]
  simp [MAX_RETRIES, BACKOFF_BASE]

/-- The database state after one failing worker execution. -/
def failStepDB (d : DB) (jurl : Nat) (jm : Method) (v : URLRec) : DB :=
  { d with
    urls := updateWhere (fun x => x.id == jurl)
      (fun _ => workerStepURL v jm false) d.urls
    logs := d.logs ++ [{ url_id := v.id, method := jm, status := "error" }] }

theorem runFailChain_fail_step (res : MethodResult) (d : DB) (jurl : Nat)
    (jm : Method) (a : Nat) (v : URLRec) (fuel : Nat)
    (hfind : findURL d jurl = some v) (hidx : v.is_indexed = false)
    (hfail : res.success = false) (ha : a < 2) :
    runFailChain res d { url_id := jurl, method := jm, attempt := a }
      (fuel + 1) =
    runFailChain res (failStepDB d jurl jm v)
      { url_id := jurl, method := jm, attempt := a + 1 } fuel := by
  have h := process_method_job_fail d
    { url_id := jurl, method := jm, attempt := a } res v hfind hidx hfail
  simp only [runFailChain]
  rw [h, if_pos ha]
  rfl

theorem runFailChain_fail_last (res : MethodResult) (d : DB) (jurl : Nat)
    (jm : Method) (v : URLRec) (fuel : Nat)
    (hfind : findURL d jurl = some v) (hidx : v.is_indexed = false)
    (hfail : res.success = false) :
    runFailChain res d { url_id := jurl, method := jm, attempt := 2 }
      (fuel + 1) = failStepDB d jurl jm v := by
  have h := process_method_job_fail d
    { url_id := jurl, method := jm, attempt := 2 } res v hfind hidx hfail
  simp only [runFailChain]
  rw [h, if_neg (by norm_num)]
  rfl

/-- C6: on a failed execution the worker requeues the job with
`attempt + 1` and delay `min(300 * 2^attempt, 3600)` exactly when
`attempt < 2`, and performs no requeue at `attempt = 2`; consequently a
method-URL pair whose executions all fail is executed exactly 3 times
(one IndexingLog row per execution) no matter how much queue fuel
remains, starting from `attempt = 0`. -/
theorem c6_retry_cap (db : DB) (job : Job) (res : MethodResult)
    (u : URLRec) (hfind : findURL db job.url_id = some u)
    (hidx : u.is_indexed = false) (hfail : res.success = false) :
    ((process_method_job db job true true res).2 =
      if job.attempt < 2 then
        [({ job with attempt := job.attempt + 1 },
          min (300 * 2 ^ job.attempt) 3600)]
      else []) ∧
    (job.attempt = 0 → ∀ fuel : Nat,
      (runFailChain res db job (fuel + 3)).logs.length =
        db.logs.length + 3) := by
  constructor
  · rw [process_method_job_fail db job res u hfind hidx hfail]
  · intro ha fuel
    obtain ⟨jurl, jm, ja⟩ := job
    have ha0 : ja = 0 := ha
    subst ha0
    have hpred0 : (u.id == jurl) = true := by
      have h0 : db.urls.find? (fun x => x.id == jurl) = some u := hfind
      have h1 := List.find?_some h0
      exact h1
    have hfind1 : findURL (failStepDB db jurl jm u) jurl =
        some (workerStepURL u jm false) := by
      show (updateWhere (fun x => x.id == jurl)
        (fun _ => workerStepURL u jm false) db.urls).find?
        (fun x => x.id == jurl) = _
      exact find?_updateWhere_const
        (by rw [workerStepURL_id]; exact hpred0) hfind
    have hidx1 : (workerStepURL u jm false).is_indexed = false := by
      rw [workerStepURL_is_indexed]
      exact hidx
    have hfind2 : findURL
        (failStepDB (failStepDB db jurl jm u) jurl jm
          (workerStepURL u jm false)) jurl =
        some (workerStepURL (workerStepURL u jm false) jm false) := by
      show (updateWhere (fun x => x.id == jurl)
        (fun _ => workerStepURL (workerStepURL u jm false) jm false)
        (failStepDB db jurl jm u).urls).find?
        (fun x => x.id == jurl) = _
      exact find?_updateWhere_const
        (by rw [workerStepURL_id, workerStepURL_id]; exact hpred0) hfind1
    have hidx2 : (workerStepURL (workerStepURL u jm false) jm
        false).is_indexed = false := by
      rw [workerStepURL_is_indexed, workerStepURL_is_indexed]
      exact hidx
    rw [show fuel + 3 = ((fuel + 1) + 1) + 1 by omega]
    rw [runFailChain_fail_step res db jurl jm 0 u ((fuel + 1) + 1)
      hfind hidx hfail (by norm_num)]
    rw [runFailChain_fail_step res (failStepDB db jurl jm u) jurl jm
      (0 + 1) (workerStepURL u jm false) (fuel + 1) hfind1 hidx1 hfail
      (by norm_num)]
    rw [show (0 : Nat) + 1 + 1 = 2 by norm_num]
    rw [runFailChain_fail_last res
      (failStepDB (failStepDB db jurl jm u) jurl jm
        (workerStepURL u jm false)) jurl jm
      (workerStepURL (workerStepURL u jm false) jm false) fuel
      hfind2 hidx2 hfail]
    simp [failStepDB, List.length_append]

def c6db : DB :=
  { users := [{ id := 6, credit_balance := 1 }],
    projects := [{ id := 6, user_id := 6, total_urls := 1 }],
    urls := [{ baseURL 60 6 "https://f.io/x" with
      status := URLStatus.submitted }],
    txs := [], logs := [] }

/-- Witness: a failing google_api job (no service account available is a
`success=false` result) at each attempt level, and the 3-execution cap. -/
theorem c6_retry_cap_witness :
    ((process_method_job c6db
        { url_id := 60, method := Method.google_api, attempt := 0 } true true
        { success := false, data := none }).2 =
      [({ url_id := 60, method := Method.google_api, attempt := 1 },
        min (300 * 2 ^ 0) 3600)]) ∧
    (runFailChain { success := false, data := none } c6db
      { url_id := 60, method := Method.google_api, attempt := 0 }
      (7 + 3)).logs.length = c6db.logs.length + 3 := by
  have h := c6_retry_cap c6db
    { url_id := 60, method := Method.google_api, attempt := 0 }
    { success := false, data := none }
    { baseURL 60 6 "https://f.io/x" with status := URLStatus.submitted }
    (by decide) (by decide) (by decide)
  refine ⟨?_, h.2 rfl 7⟩
  rw [h.1]
  rfl

/-! ## C4: the refund contract -/

theorem refundTxCount_append (a b : List CreditTransaction) (i : Nat) :
    refundTxCount (a ++ b) i = refundTxCount a i + refundTxCount b i := by
  simp [refundTxCount, List.filter_append]

theorem refundTxCount_map (uid : Nat) (l : List URLRec) (i : Nat) :
    refundTxCount (l.map (fun w => refundTx uid w.id)) i =
      (l.filter (fun w => w.id == i)).length := by
  induction l with
  | nil => rfl
  | cons w ws ih =>
    unfold refundTxCount at ih ⊢
    rw [List.map_cons]
    by_cases h : w.id = i
    · rw [List.filter_cons_of_pos (by simp [refundTx, h]),
        List.filter_cons_of_pos (by simp [h]), List.length_cons,
        List.length_cons, ih]
    · rw [List.filter_cons_of_neg (by simp [refundTx, h]),
        List.filter_cons_of_neg (by simp [h]), ih]

theorem filter_id_singleton {l : List URLRec}
    (hnd : (l.map URLRec.id).Nodup) {y : URLRec} (hy : y ∈ l) :
    l.filter (fun w => w.id == y.id) = [y] := by
  induction l with
  | nil => cases hy
  | cons a as ih =>
    rw [List.map_cons, List.nodup_cons] at hnd
    rcases List.mem_cons.mp hy with h | h
    · subst h
      rw [List.filter_cons_of_pos (p := fun w : URLRec => w.id == y.id)
        (by simp)]
      have hrest : as.filter (fun w => w.id == y.id) = [] := by
        refine List.filter_eq_nil_iff.mpr ?_
        intro w hw hcontra
        have hwid : w.id = y.id := by simpa using hcontra
        exact hnd.1 (hwid ▸ List.mem_map_of_mem URLRec.id hw)
      rw [hrest]
    · have ha : ¬ ((a.id == y.id) = true) := by
        intro hcontra
        have heq : a.id = y.id := by simpa using hcontra
        refine hnd.1 ?_
        rw [heq]
        exact List.mem_map_of_mem URLRec.id h
      rw [List.filter_cons_of_neg (p := fun w : URLRec => w.id == y.id) ha]
      exact ih hnd.2 h

/-- C4: `refund_credits` acts only on fetched URLs satisfying
`credit_debited ∧ ¬credit_refunded ∧ ¬is_indexed` (`refundSel`): other
URLs stay unchanged; each selected URL is marked `credit_refunded` with
status `recredited`; the balance grows by the number of selected URLs
and exactly one refund transaction is appended per selected URL; the
call is idempotent — a second call on the same url_ids refunds 0 and
changes nothing; and, for URL rows with distinct ids, it preserves the
invariant that a URL has exactly one refund transaction iff
`credit_refunded = true`. -/
theorem c4_refund_spec (db : DB) (uid : Nat) (ids : List Nat) :
    (∀ x ∈ db.urls, refundSel ids x = false →
      x ∈ (refund_credits db uid ids).1.urls) ∧
    (∀ user, findUser db uid = some user → ∀ x ∈ db.urls,
      refundSel ids x = true →
      ({ x with
          credit_refunded := true
          status := URLStatus.recredited } : URLRec) ∈
        (refund_credits db uid ids).1.urls) ∧
    (∀ user, findUser db uid = some user →
      (findUser (refund_credits db uid ids).1 uid).map
          UserRec.credit_balance =
        some (user.credit_balance +
          ((db.urls.filter (refundSel ids)).length : Int)) ∧
      (refund_credits db uid ids).1.txs =
        db.txs ++ (db.urls.filter (refundSel ids)).map
          (fun x => refundTx uid x.id) ∧
      (refund_credits db uid ids).2 =
        (db.urls.filter (refundSel ids)).length) ∧
    (refund_credits (refund_credits db uid ids).1 uid ids =
      ((refund_credits db uid ids).1, 0)) ∧
    ((db.urls.map URLRec.id).Nodup → refundInv db →
      refundInv (refund_credits db uid ids).1) := by
  refine ⟨?_, ?_, ?_, ?_, ?_⟩
  · intro x hx hsel
    cases hfu : findUser db uid with
    | none =>
      rw [refund_credits_no_user db uid ids hfu]
      exact hx
    | some user =>
      rw [refund_credits_run db uid ids user hfu]
      refine List.mem_map.mpr ⟨x, hx, ?_⟩
      rw [if_neg (by simp [hsel])]
  · intro user hfu x hx hsel
    rw [refund_credits_run db uid ids user hfu]
    refine List.mem_map.mpr ⟨x, hx, ?_⟩
    rw [if_pos hsel]
  · intro user hfu
    rw [refund_credits_run db uid ids user hfu]
    refine ⟨?_, rfl, rfl⟩
    have hfu1 : db.users.find? (fun v => v.id == uid) = some user := hfu
    show ((updateWhere (fun v => v.id == uid)
      (fun v => { v with credit_balance := v.credit_balance +
        ((db.urls.filter (refundSel ids)).length : Int) })
      db.users).find? (fun v => v.id == uid)).map UserRec.credit_balance = _
    rw [find?_updateWhere (fun v => v.id == uid)
      (fun v => { v with credit_balance := v.credit_balance +
        ((db.urls.filter (refundSel ids)).length : Int) })
      db.users (fun x hx => hx), hfu1]
    rfl
  · cases hfu : findUser db uid with
    | none =>
      rw [refund_credits_no_user db uid ids hfu,
        refund_credits_no_user db uid ids hfu]
    | some user =>
      have hrun := refund_credits_run db uid ids user hfu
      have huser1 : findUser (refund_credits db uid ids).1 uid =
          some { user with credit_balance := user.credit_balance +
            ((db.urls.filter (refundSel ids)).length : Int) } := by
        rw [hrun]
        have hfu1 : db.users.find? (fun v => v.id == uid) = some user := hfu
        show ((updateWhere (fun v => v.id == uid)
          (fun v => { v with credit_balance := v.credit_balance +
            ((db.urls.filter (refundSel ids)).length : Int) })
          db.users).find? (fun v => v.id == uid)) = _
        rw [find?_updateWhere (fun v => v.id == uid)
          (fun v => { v with credit_balance := v.credit_balance +
            ((db.urls.filter (refundSel ids)).length : Int) })
          db.users (fun x hx => hx), hfu1]
        rfl
      have hall : ∀ x ∈ (refund_credits db uid ids).1.urls,
          refundSel ids x = false := by
        rw [hrun]
        intro x hx
        obtain ⟨y, hy, hcase⟩ := mem_updateWhere hx
        by_cases hsel : refundSel ids y = true
        · rw [if_pos hsel] at hcase
          rw [hcase]
          simp [refundSel, refundEligible]
        · rw [if_neg hsel] at hcase
          rw [hcase]
          cases hb : refundSel ids y with
          | false => rfl
          | true => exact absurd hb hsel
      have hfilter : (refund_credits db uid ids).1.urls.filter
          (refundSel ids) = [] := by
        refine List.filter_eq_nil_iff.mpr ?_
        intro x hx hcontra
        rw [hall x hx] at hcontra
        cases hcontra
      rw [refund_credits_run (refund_credits db uid ids).1 uid ids _ huser1,
        hfilter]
      rw [updateWhere_eq_of_none _ _ _ hall]
      simp only [List.length_nil, List.map_nil, List.append_nil,
        Nat.cast_zero]
      rw [updateWhere_id _ _ _ (fun v => by cases v; simp)]
  · intro hnd hinv
    cases hfu : findUser db uid with
    | none =>
      rw [refund_credits_no_user db uid ids hfu]
      exact hinv
    | some user =>
      rw [refund_credits_run db uid ids user hfu]
      intro x hx
      obtain ⟨y, hy, hcase⟩ := mem_updateWhere hx
      show refundTxCount (db.txs ++ (db.urls.filter (refundSel ids)).map
        (fun w => refundTx uid w.id)) x.id = _
      rw [refundTxCount_append, refundTxCount_map]
      by_cases hsel : refundSel ids y = true
      · rw [if_pos hsel] at hcase
        have hxid : x.id = y.id := by rw [hcase]
        have hxref : x.credit_refunded = true := by rw [hcase]
        have hysel : y ∈ db.urls.filter (refundSel ids) :=
          List.mem_filter.mpr ⟨hy, hsel⟩
        have hndsel : ((db.urls.filter (refundSel ids)).map
            URLRec.id).Nodup :=
          hnd.sublist ((List.filter_sublist db.urls).map URLRec.id)
        have hyref : y.credit_refunded = false := by
          simp only [refundSel, refundEligible, Bool.and_eq_true] at hsel
          have := hsel.2.1.2
          cases hb : y.credit_refunded with
          | false => rfl
          | true => rw [hb] at this; cases this
        rw [hxid, hxref, filter_id_singleton hndsel hysel, hinv y hy, hyref]
        simp
      · rw [if_neg hsel] at hcase
        have hempty : (db.urls.filter (refundSel ids)).filter
            (fun w => w.id == x.id) = [] := by
          refine List.filter_eq_nil_iff.mpr ?_
          intro w hw hcontra
          have hwid : w.id = x.id := by simpa using hcontra
          have hw2 := List.mem_filter.mp hw
          have hwy : w = y :=
            List.inj_on_of_nodup_map hnd hw2.1 hy (by rw [hwid, hcase])
          rw [hwy] at hw2
          exact hsel hw2.2
        rw [hempty, hcase, hinv y hy]
        simp

def c4url1 : URLRec :=
  { baseURL 50 5 "https://e.io/1" with credit_debited := true }

def c4url2 : URLRec :=
  { baseURL 51 5 "https://e.io/2" with
    credit_debited := true
    is_indexed := true
    status := URLStatus.indexed
    indexed_at := some 3 }

def c4db : DB :=
  { users := [{ id := 5, credit_balance := 3 }],
    projects := [{ id := 5, user_id := 5, total_urls := 2 }],
    urls := [c4url1, c4url2],
    txs := [debitTx 5 50, debitTx 5 51], logs := [] }

/-- Witness: refunding two URLs of which only one is eligible (the other
is already indexed) refunds exactly 1 and keeps the refund invariant. -/
theorem c4_refund_spec_witness :
    (findUser (refund_credits c4db 5 [50, 51]).1 5).map
        UserRec.credit_balance =
      some ((3 : Int) +
        ((c4db.urls.filter (refundSel [50, 51])).length : Int)) ∧
    (refund_credits c4db 5 [50, 51]).2 = 1 ∧
    refundInv (refund_credits c4db 5 [50, 51]).1 := by
  have h := c4_refund_spec c4db 5 [50, 51]
  obtain ⟨hbal, htxs, hn⟩ :=
    h.2.2.1 { id := 5, credit_balance := 3 } (by decide)
  refine ⟨hbal, ?_, h.2.2.2.2 (by decide) (by decide)⟩
  rw [hn]
  decide

/-! ## C5: stickiness of is_indexed -/

theorem precheckStepURL_id (u : URLRec) (cr : CheckResult) (now : Nat)
    (b : Bool) : (precheckStepURL u cr now b).id = u.id := by
  unfold precheckStepURL markIndexedURL
  cases b <;> rfl

theorem precheckStepURL_is_indexed (u : URLRec) (cr : CheckResult)
    (now : Nat) (b : Bool) :
    (precheckStepURL u cr now b).is_indexed = true := by
  unfold precheckStepURL markIndexedURL
  cases b <;> rfl

theorem verifyStepURL_id (u : URLRec) (cr : CheckResult) (now : Nat) :
    (verifyStepURL u cr now).id = u.id := by
  unfold verifyStepURL
  rcases hci : cr.is_indexed with _ | b
  · simp only [hci]
    split <;> first | rfl | (split <;> rfl)
  · cases b <;> simp only [hci] <;>
      (split <;> first | rfl | (split <;> rfl))

theorem verifyStepURL_mono (u : URLRec) (cr : CheckResult) (now : Nat)
    (h : u.is_indexed = true) :
    (verifyStepURL u cr now).is_indexed = true := by
  unfold verifyStepURL
  rcases hci : cr.is_indexed with _ | b
  · simp only [hci]
    split <;> first | exact h | (split <;> exact h)
  · cases b with
    | false =>
      simp only [hci]
      split <;> first | exact h | (split <;> exact h)
    | true =>
      simp only [hci]

/-- Every row of the database came from a row with the same id whose
`is_indexed` was at most as strong (the trivial no-op case). -/
theorem origin_refl {l : List URLRec} :
    ∀ x ∈ l, ∃ y ∈ l, x.id = y.id ∧
      (y.is_indexed = true → x.is_indexed = true) :=
  fun x hx => ⟨x, hx, rfl, id⟩

theorem origin_of_updateWhere_preserve {p : URLRec → Bool}
    {f : URLRec → URLRec} {l : List URLRec}
    (hid : ∀ y, (f y).id = y.id)
    (hmono : ∀ y, y.is_indexed = true → (f y).is_indexed = true) :
    ∀ x ∈ updateWhere p f l, ∃ y ∈ l, x.id = y.id ∧
      (y.is_indexed = true → x.is_indexed = true) := by
  intro x hx
  obtain ⟨y, hy, hcase⟩ := mem_updateWhere hx
  by_cases hp : p y = true
  · rw [if_pos hp] at hcase
    exact ⟨y, hy, by rw [hcase, hid],
      fun h => by rw [hcase]; exact hmono y h⟩
  · rw [if_neg hp] at hcase
    exact ⟨y, hy, by rw [hcase], fun h => by rw [hcase]; exact h⟩

theorem origin_of_updateWhere_const {l : List URLRec} {i : Nat}
    {v u0 : URLRec} (hfind : l.find? (fun z => z.id == i) = some u0)
    (hvid : v.id = u0.id)
    (himp : u0.is_indexed = true → v.is_indexed = true) :
    ∀ x ∈ updateWhere (fun z => z.id == i) (fun _ => v) l,
      ∃ y ∈ l, x.id = y.id ∧
        (y.is_indexed = true → x.is_indexed = true) := by
  intro x hx
  obtain ⟨y, hy, hcase⟩ := mem_updateWhere hx
  by_cases hp : (y.id == i) = true
  · rw [if_pos hp] at hcase
    refine ⟨u0, List.mem_of_find?_eq_some hfind, ?_, ?_⟩
    · rw [hcase, hvid]
    · intro h
      rw [hcase]
      exact himp h
  · rw [if_neg hp] at hcase
    exact ⟨y, hy, by rw [hcase], fun h => by rw [hcase]; exact h⟩

/-- Every system operation sends each URL row to a row whose
`is_indexed` did not drop from true to false. -/
theorem sysop_origin (db : DB) (op : SysOp) :
    ∀ x ∈ (applySysOp db op).urls, ∃ y ∈ db.urls, x.id = y.id ∧
      (y.is_indexed = true → x.is_indexed = true) := by
  cases op with
  | credit cop =>
    cases cop with
    | debit uid ids =>
      cases hfu : findUser db uid with
      | none =>
        simp only [applySysOp, applyCreditOp,
          debit_credits_no_user db uid ids hfu]
        exact origin_refl
      | some user =>
        by_cases hb : user.credit_balance < (ids.length : Int)
        · simp only [applySysOp, applyCreditOp,
            debit_credits_insufficient db uid ids user hfu hb]
          exact origin_refl
        · simp only [applySysOp, applyCreditOp,
            debit_credits_ok db uid ids user hfu hb]
          exact origin_of_updateWhere_preserve (fun y => rfl)
            (fun y h => h)
    | refund uid ids =>
      cases hfu : findUser db uid with
      | none =>
        simp only [applySysOp, applyCreditOp,
          refund_credits_no_user db uid ids hfu]
        exact origin_refl
      | some user =>
        simp only [applySysOp, applyCreditOp,
          refund_credits_run db uid ids user hfu]
        exact origin_of_updateWhere_preserve (fun y => rfl) (fun y h => h)
    | grant uid amount descr =>
      cases hfu : findUser db uid with
      | none =>
        simp only [applySysOp, applyCreditOp,
          add_credits_no_user db uid amount descr hfu]
        exact origin_refl
      | some user =>
        simp only [applySysOp, applyCreditOp,
          add_credits_ok db uid amount descr user hfu]
        exact origin_refl
    | precheck url_id uid cr now =>
      cases hfu : findURL db url_id with
      | none =>
        simp only [applySysOp, applyCreditOp,
          mark_already_indexed_not_found db url_id uid cr now hfu]
        exact origin_refl
      | some u0 =>
        simp only [applySysOp, applyCreditOp,
          mark_already_indexed_found db url_id uid cr now u0 hfu]
        exact origin_of_updateWhere_const hfu
          (precheckStepURL_id u0 cr now _)
          (fun _ => precheckStepURL_is_indexed u0 cr now _)
    | remove uid url_id =>
      cases hf : db.urls.find?
          (fun x => x.id == url_id && urlOwnedBy db x uid) with
      | none =>
        simp only [applySysOp, applyCreditOp,
          delete_url_not_found db uid url_id hf]
        exact origin_refl
      | some u0 =>
        simp only [applySysOp, applyCreditOp,
          delete_url_found db uid url_id u0 hf]
        intro x hx
        exact ⟨x, (List.mem_filter.mp hx).1, rfl, id⟩
  | resubmit uid url_id =>
    cases hf : db.urls.find?
        (fun x => x.id == url_id && urlOwnedBy db x uid) with
    | none =>
      simp only [applySysOp, resubmit_url_not_found db uid url_id hf]
      exact origin_refl
    | some u0 =>
      simp only [applySysOp, resubmit_url_found db uid url_id u0 hf]
      exact origin_of_updateWhere_preserve (fun y => rfl) (fun y h => h)
  | submitSingle url_id now =>
    cases hfu : findURL db url_id with
    | none =>
      have heq : submit_single_url db url_id now = (db, []) := by
        unfold submit_single_url
        rw [hfu]
      simp only [applySysOp, heq]
      exact origin_refl
    | some u0 =>
      have heq : (submit_single_url db url_id now).1 =
          { db with
            urls := updateWhere (fun w => w.id == url_id)
              (markSubmittedURL now) db.urls } := by
        unfold submit_single_url
        rw [hfu]
      simp only [applySysOp, heq]
      exact origin_of_updateWhere_preserve (fun y => rfl) (fun y h => h)
  | worker job rateOk lockOk res =>
    cases rateOk with
    | false => exact origin_refl
    | true =>
      cases lockOk with
      | false => exact origin_refl
      | true =>
        cases hfu : findURL db job.url_id with
        | none =>
          have heq : process_method_job db job true true res = (db, []) := by
            simp [process_method_job, hfu]
          simp only [applySysOp, heq]
          exact origin_refl
        | some u0 =>
          by_cases hidx : u0.is_indexed = true
          · have heq : process_method_job db job true true res =
                (db, []) := by
              simp [process_method_job, hfu, hidx]
            simp only [applySysOp, heq]
            exact origin_refl
          · have hidx2 : u0.is_indexed = false := by
              cases hb : u0.is_indexed with
              | true => exact absurd hb hidx
              | false => rfl
            simp only [applySysOp,
              process_method_job_run db job res u0 hfu hidx2]
            exact origin_of_updateWhere_const hfu
              (workerStepURL_id u0 job.method res.success)
              (fun h => absurd h hidx)
  | verifyStep url_id pc now =>
    cases pc with
    | none =>
      have heq : process_url db url_id none now = db := by
        unfold process_url
        cases findURL db url_id <;> rfl
      simp only [applySysOp, heq]
      exact origin_refl
    | some cr =>
      cases hfu : findURL db url_id with
      | none =>
        have heq : process_url db url_id (some cr) now = db := by
          unfold process_url
          rw [hfu]
        simp only [applySysOp, heq]
        exact origin_refl
      | some u0 =>
        simp only [applySysOp, process_url_found db url_id cr now u0 hfu]
        exact origin_of_updateWhere_const hfu (verifyStepURL_id u0 cr now)
          (verifyStepURL_mono u0 cr now)
  | dispatch url_id uid pc now =>
    cases hfu : findURL db url_id with
    | none =>
      have heq : (dispatch_url db url_id uid pc now).db = db := by
        unfold dispatch_url
        rw [hfu]
      simp only [applySysOp, heq]
      exact origin_refl
    | some u0 =>
      cases pc with
      | failed =>
        have heq : (dispatch_url db url_id uid PrecheckOutcome.failed
            now).db =
            { db with
              urls := updateWhere (fun w => w.id == url_id)
                (markSubmittedURL now) db.urls } := by
          unfold dispatch_url
          rw [hfu]
        simp only [applySysOp, heq]
        exact origin_of_updateWhere_preserve (fun y => rfl) (fun y h => h)
      | ok cr =>
        by_cases hyes : cr.is_indexed = some true
        · have heq : (dispatch_url db url_id uid (PrecheckOutcome.ok cr)
              now).db = mark_already_indexed db url_id uid cr now := by
            simp only [dispatch_url, hfu]
            rw [if_pos hyes]
          simp only [applySysOp, heq,
            mark_already_indexed_found db url_id uid cr now u0 hfu]
          exact origin_of_updateWhere_const hfu
            (precheckStepURL_id u0 cr now _)
            (fun _ => precheckStepURL_is_indexed u0 cr now _)
        · have heq : (dispatch_url db url_id uid (PrecheckOutcome.ok cr)
              now).db =
              { db with
                urls := updateWhere (fun w => w.id == url_id)
                  (markSubmittedURL now) db.urls } := by
            simp only [dispatch_url, hfu]
            rw [if_neg hyes]
          simp only [applySysOp, heq]
          exact origin_of_updateWhere_preserve (fun y => rfl) (fun y h => h)

/-- C5 (amended): `is_indexed`, once true, is never unset by any system
operation (ledger operations, resubmission, single-URL resubmission, the
queue worker — which drops jobs for indexed URLs — the verification
step, and the dispatcher); the claim's further assertion that the status
also remains `indexed` fails for the resubmission endpoints, which set
status back to `submitted` without checking `is_indexed`. -/
theorem c5_is_indexed_sticky (op : SysOp) (db : DB)
    (hnd : (db.urls.map URLRec.id).Nodup) (u : URLRec) (hu : u ∈ db.urls)
    (hui : u.is_indexed = true) (x : URLRec)
    (hx : x ∈ (applySysOp db op).urls) (hid : x.id = u.id) :
    x.is_indexed = true := by
  obtain ⟨y, hy, hxy, himp⟩ := sysop_origin db op x hx
  have hyu : y = u :=
    List.inj_on_of_nodup_map hnd hy hu (by rw [← hxy, hid])
  exact himp (hyu ▸ hui)

/-- Witness: the worker drops a job for the concrete indexed URL and the
URL stays indexed. -/
theorem c5_is_indexed_sticky_witness : c5url.is_indexed = true :=
  c5_is_indexed_sticky
    (SysOp.worker { url_id := 30, method := Method.indexnow, attempt := 0 }
      true true { success := false, data := none })
    c5db (by decide) c5url (by decide) (by decide) c5url (by decide) rfl

/-! ## C1: IndexNow HTTP 500 handling -/

/-- C1 (code bug): an IndexNow submission answered with HTTP 500 makes
the adapter report failure (`success=false`), but `_execute_method`'s
`indexnow` branch wraps it as `success=True`, so the worker logs the
attempt as a success, sets `indexnow_last_status = "success"`, records
one attempt and schedules no retry — instead of recording an error and
retrying with backoff up to 3 attempts as the claim states. -/
theorem c1_indexnow_http500_logged_as_success :
    (submit_indexnow 500).success = false ∧
    (execute_method_indexnow true 500).success = true ∧
    (process_method_job c1db c1job true true
      (execute_method_indexnow true 500)).2 = [] ∧
    (findURL (process_method_job c1db c1job true true
        (execute_method_indexnow true 500)).1 10).map
      URLRec.indexnow_attempts = some 1 ∧
    (findURL (process_method_job c1db c1job true true
        (execute_method_indexnow true 500)).1 10).map
      URLRec.indexnow_last_status = some (some "success") ∧
    (process_method_job c1db c1job true true
      (execute_method_indexnow true 500)).1.logs =
      [{ url_id := 10, method := Method.indexnow, status := "success" }] := by
  decide

/-! ## C5: stickiness of the indexed state -/

/-- C5 (counterexample): the resubmit endpoint moves an indexed URL's
status back to `submitted` while `is_indexed` stays true, so an indexed
URL's status does not remain `indexed` under every operation. -/
theorem c5_resubmit_moves_indexed_url_to_submitted :
    c5url.is_indexed = true ∧ c5url.status = URLStatus.indexed ∧
    (applySysOp c5db (SysOp.resubmit 3 30)).urls.map URLRec.status =
      [URLStatus.submitted] ∧
    (applySysOp c5db (SysOp.resubmit 3 30)).urls.map URLRec.is_indexed =
      [true] := by
  decide

/-! ## C7: the fallback probe -/

/-- C7 (counterexample): with no credentials configured, the fallback
probe does not always return `unknown`: a successful fetch whose body
lacks the URL yields `no`, and one containing it yields `yes`. -/
theorem c7_fallback_returns_yes_and_no :
    (check_indexed_fallback "https://a.io/p" (some "")).is_indexed =
      some false ∧
    (check_indexed_fallback "https://a.io/p"
      (some "x HTTPS://A.IO/P y")).is_indexed = some true := by
  decide

/-- C7 (amended): the fallback probe returns `unknown` exactly when the
HTTP request raises; on a successful response it scrapes the body and
answers `yes` or `no` by a case-insensitive substring test. -/
theorem c7_fallback_unknown_iff_transport_error (url : String)
    (response : Option String) :
    (check_indexed_fallback url response).is_indexed = none ↔
      response = none := by
  cases response <;> simp [check_indexed_fallback]

/-! ## C8: quota reset -/

/-- C8 (counterexample): `reset_all_quotas` re-enables a disabled
credential unconditionally — the row records no disable reason, so a
credential disabled explicitly by an admin is re-enabled too, against
the claim that it remains disabled. -/
theorem c8_reset_reenables_every_disabled_account :
    c8acc.is_active = false ∧
    (reset_all_quotas 7 [c8acc]).map ServiceAccount.is_active = [true] := by
  decide

/-- C8 (amended): after `reset_all_quotas`, every credential has
`used_today = 0`, `last_reset_at` set to the reset time, and
`is_active = true` — re-enabling is unconditional. -/
theorem c8_reset_all_quotas_spec (now : Nat)
    (accounts : List ServiceAccount) :
    ∀ sa ∈ reset_all_quotas now accounts,
      sa.used_today = 0 ∧ sa.last_reset_at = some now ∧
      sa.is_active = true := by
  intro sa hsa
  obtain ⟨x, _, rfl⟩ := List.mem_map.mp hsa
  exact ⟨rfl, rfl, rfl⟩

/-- The concrete account row produced by resetting `c8acc`. -/
def c8reset : ServiceAccount :=
  { id := 1, daily_quota := 200, used_today := 0, is_active := true,
    last_reset_at := some 7 }

/-- Witness: the reset of the concrete disabled account. -/
theorem c8_reset_all_quotas_spec_witness :
    c8reset.used_today = 0 ∧ c8reset.last_reset_at = some 7 ∧
    c8reset.is_active = true :=
  c8_reset_all_quotas_spec 7 [c8acc] c8reset (by decide)

/-! ## C9: the pre-check path -/

/-- C9 (code bug): on a positive pre-check the dispatcher marks the URL
indexed with `indexed_at` set, refunds the debited credit with exactly
one refund transaction, emits the notification and enqueues no jobs —
but it never sets `pre_indexed = true` (no code path assigns the column,
although the schema migration backfills it for exactly these URLs), so
the URL's `pre_indexed` stays false. -/
theorem c9_precheck_leaves_pre_indexed_false :
    (dispatch_url c9db 20 2 (PrecheckOutcome.ok c9cr) 99).jobs = [] ∧
    (dispatch_url c9db 20 2 (PrecheckOutcome.ok c9cr) 99).notified = true ∧
    (findURL (dispatch_url c9db 20 2 (PrecheckOutcome.ok c9cr) 99).db 20).map
      URLRec.is_indexed = some true ∧
    (findURL (dispatch_url c9db 20 2 (PrecheckOutcome.ok c9cr) 99).db 20).map
      URLRec.status = some URLStatus.indexed ∧
    (findURL (dispatch_url c9db 20 2 (PrecheckOutcome.ok c9cr) 99).db 20).map
      URLRec.indexed_at = some (some 99) ∧
    (findURL (dispatch_url c9db 20 2 (PrecheckOutcome.ok c9cr) 99).db 20).map
      URLRec.credit_refunded = some true ∧
    (findUser (dispatch_url c9db 20 2 (PrecheckOutcome.ok c9cr) 99).db 2).map
      UserRec.credit_balance = some 51 ∧
    (dispatch_url c9db 20 2 (PrecheckOutcome.ok c9cr) 99).db.txs =
      c9db.txs ++ [precheckRefundTx 2 20] ∧
    (findURL (dispatch_url c9db 20 2 (PrecheckOutcome.ok c9cr) 99).db 20).map
      URLRec.pre_indexed = some false := by
  decide

end IndexAI
